import Mathlib

/-!
# PHTpcTracker: the per-event orchestrator and the track follower's interface

A shallow embedding of `PHTpcTracker.cc` (constructor, `process_event`,
`getMagField`, the option setters) and of the inline members of
`PHTpcTrackFollower.h`.

Conventions of the embedding
* A C++ pointer is an address (`Ptr`); a pointer that may be `nullptr` is an
  `Option`.
* `double` is an uninterpreted type `D`; the few operations the code performs
  on it (the literals `0` and `1.4`, `signaling_NaN()`, division by
  `CLHEP::tesla`) are fields of the collaborator record `Ext`, so no property
  of floating-point arithmetic is assumed.
* Every call that leaves `PHTpcTracker.cc` (seed finder, follower, lookup,
  vertex finder, exporter, field and geometry utilities, `new`, `delete`) is
  recorded, in program order, in a trace of `Call`s; the behaviour of the
  collaborators is a parameter (`Ext`).
* Logging and the wall-clock timers are not modelled; the exported file name,
  which is built from the clock, is left out of the `exportEvent` record.
-/

namespace PHTpc

/-- An address. The objects behind the handles (field map, geometry manager,
cluster container, seed candidate, track, vertex) are never inspected by the
orchestrator, only passed on. -/
abbrev Ptr := Nat

/-- The constant-field configuration `PHFieldConfigv2(field_mag_x, field_mag_y,
field_mag_z)` of `phfield`. -/
structure PHFieldConfigv2 (D : Type) where
  field_mag_x : D
  field_mag_y : D
  field_mag_z : D

/-- The member `PHFieldConfigv2::set_field_mag_z`. -/
def PHFieldConfigv2.set_field_mag_z {D : Type} (c : PHFieldConfigv2 D) (z : D) :
    PHFieldConfigv2 D :=
  { c with field_mag_z := z }

/-- The data members of `PHTpcTrackFollower` (PHTpcTrackFollower.h, lines 49-51). -/
structure PHTpcTrackFollower where
  mOptHelix : Bool
  mOptPreciseFit : Bool

/-- PHTpcTrackFollower.h line 37: `{ mOptHelix = opt; }` (the C++ default
argument is `true`). -/
def PHTpcTrackFollower.set_optimization_helix (self : PHTpcTrackFollower) (opt : Bool) :
    PHTpcTrackFollower :=
  { self with mOptHelix := opt }

/-- PHTpcTrackFollower.h line 38: `{ mOptPreciseFit = opt; }`. -/
def PHTpcTrackFollower.set_optimization_precise_fit (self : PHTpcTrackFollower) (opt : Bool) :
    PHTpcTrackFollower :=
  { self with mOptPreciseFit := opt }

/-- Modelled from the spec: the class `PHTpcLookup` (PHTpcLookup.h is absent).
The spec gives it `init(hitCollection)`, which populates it from the hits of
the event, and `clear()`, which empties it. -/
inductive PHTpcLookup where
  | cleared
  | populated (cluster_map : Option Ptr)

/-- Modelled from the spec: `PHTpcLookup::init(hitCollection)` (PHTpcLookup.h
is absent) populates the lookup from the given hit collection. -/
def PHTpcLookup.init (_self : PHTpcLookup) (cluster_map : Option Ptr) : PHTpcLookup :=
  .populated cluster_map

/-- Modelled from the spec: `PHTpcLookup::clear()` (PHTpcLookup.h is absent)
empties the lookup. -/
def PHTpcLookup.clear (_self : PHTpcLookup) : PHTpcLookup :=
  .cleared

/-- A `PHGenFit2::Fitter`, identified by the arguments of its construction
`new PHGenFit2::Fitter( mTGeoManager, mField )`. -/
structure Fitter where
  tgeo : Ptr
  field : Ptr
  deriving DecidableEq

/-- What `process_event` and `getMagField` read from the node tree. -/
structure PHCompositeNode where
  /-- The result of `PHFieldUtility::GetFieldMapNode(nullptr, topNode)`. -/
  fieldMapNode : Option Ptr
  /-- The result of `PHGeomUtility::GetTGeoManager(topNode)`. -/
  tGeoManager : Option Ptr
  /-- The result of `findNode::getClass<TrkrClusterContainer>(topNode, "TRKR_CLUSTER")`. -/
  clusterMap : Option Ptr

/-- The call `PHFieldUtility::GetFieldMapNode(nullptr, topNode)`. -/
def PHFieldUtility.GetFieldMapNode (topNode : PHCompositeNode) : Option Ptr :=
  topNode.fieldMapNode

/-- The call `PHGeomUtility::GetTGeoManager(topNode)`. -/
def PHGeomUtility.GetTGeoManager (topNode : PHCompositeNode) : Option Ptr :=
  topNode.tGeoManager

/-- The constant `Fun4AllReturnCodes::EVENT_OK` of `fun4all`. -/
def Fun4AllReturnCodes.EVENT_OK : Int := 0

/-- The collaborators of the orchestrator, as parameters: arithmetic on
`double`, the `phfield` utilities, and the seed finder, track follower and
vertex finder, each a function of the arguments the orchestrator passes.
`SF` is the state of the `PHTpcSeedFinder`. -/
structure Ext (D SF : Type) where
  /-- The literal `0` converted to `double`. -/
  zero : D
  /-- The literal `1.4`. -/
  lit_1_4 : D
  /-- `std::numeric_limits<double>::signaling_NaN()`. -/
  signaling_NaN : D
  /-- Division of doubles. -/
  div : D → D → D
  /-- `CLHEP::tesla`. -/
  tesla : D
  /-- `field_file->GetFieldValue(point, Bfield)`: the array `Bfield` after the call. -/
  GetFieldValue : Ptr → (Fin 4 → D) → (Fin 6 → D) → (Fin 6 → D)
  /-- `PHFieldUtility::BuildFieldMap(&bconfig, verbosity)`. -/
  BuildFieldMap : PHFieldConfigv2 D → Int → Option Ptr
  /-- `mSeedFinder->findSeeds( cluster_map, mB )`. -/
  findSeeds : SF → Option Ptr → D → List Ptr
  /-- `mTrackFollower->followTracks( cluster_map, candidates, mField, mLookup, mFitter )`. -/
  followTracks : PHTpcTrackFollower → Option Ptr → List Ptr → Option Ptr → PHTpcLookup →
    Option Fitter → List Ptr
  /-- `mVertexFinder->findVertices( gtracks )`. -/
  findVertices : List Ptr → List Ptr
  /-- `mSeedFinder->set_options(...)`. -/
  set_options : SF → D → D → Nat → D → D → Nat → Nat → SF
  /-- `mSeedFinder->set_optimization_remove_loopers( opt, minr, maxr )`. -/
  set_optimization_remove_loopers : SF → Bool → D → D → SF

/-- The calls that leave `PHTpcTracker.cc`, with their arguments (and, for the
seed finder and the follower, the list they returned). -/
inductive Call (D : Type) where
  | getMagField (B : D)
  | GetFieldMapNode
  | GetFieldValue (field_file : Ptr)
  | BuildFieldMap (bconfig : PHFieldConfigv2 D) (verbosity : Int)
  | GetTGeoManager
  | newFitter (tgeo : Ptr) (field : Ptr)
  | findSeeds (cluster_map : Option Ptr) (B : D) (ret : List Ptr)
  | lookup_init (cluster_map : Option Ptr)
  | followTracks (cluster_map : Option Ptr) (candidates : List Ptr) (B : Option Ptr)
      (lookup : PHTpcLookup) (fitter : Option Fitter) (ret : List Ptr)
  | findVertices (gtracks : List Ptr)
  | exportEvent (cluster_map : Option Ptr) (gtracks : List Ptr) (B : D)
  | delete_candidate (p : Ptr)
  | delete_gtrack (p : Ptr)
  | lookup_clear
  | delete_vertex (p : Ptr)

/-- The data members of `PHTpcTracker` that the code under study reads or
writes. `mVertexFinder` and `mEventExporter` are only ever called through
(`findVertices`, `exportEvent`) and carry no state here. -/
structure PHTpcTracker (D SF : Type) where
  mSeedFinder : SF
  mTrackFollower : PHTpcTrackFollower
  mLookup : PHTpcLookup
  mFitter : Option Fitter
  mTGeoManager : Option Ptr
  mField : Option Ptr
  mB : D
  mEnableVertexing : Bool
  mEnableJsonExport : Bool

/-- The constructor (PHTpcTracker.cc lines 38-60): the three handles are null,
`mB` is `1.4`, both switches are off; the freshly constructed seed finder,
follower and lookup are arguments. -/
def PHTpcTracker.new {D SF : Type} (ext : Ext D SF) (seedFinder : SF)
    (trackFollower : PHTpcTrackFollower) (lookup : PHTpcLookup) : PHTpcTracker D SF :=
  { mSeedFinder := seedFinder
    mTrackFollower := trackFollower
    mLookup := lookup
    mFitter := none
    mTGeoManager := none
    mField := none
    mB := ext.lit_1_4
    mEnableVertexing := false
    mEnableJsonExport := false }

/-- What `getMagField` hands back: the returned `PHField*`, the value of the
reference parameter `B` on return, and the calls made. -/
structure MagFieldResult (D : Type) where
  field : Option Ptr
  B : D
  trace : List (Call D)

/-- `PHTpcTracker::getMagField` (PHTpcTracker.cc lines 157-183). -/
def getMagField {D SF : Type} (ext : Ext D SF) (topNode : PHCompositeNode) (B : D) :
    MagFieldResult D :=
  let bconfig : PHFieldConfigv2 D := ⟨ext.zero, ext.zero, B⟩
  match PHFieldUtility.GetFieldMapNode topNode with
  | some field_file =>
    let point : Fin 4 → D := fun _ => ext.zero
    let Bfield0 : Fin 6 → D := fun _ => ext.signaling_NaN
    let Bfield := ext.GetFieldValue field_file point Bfield0
    let Bz := Bfield 2
    let B1 := ext.div Bz ext.tesla
    let bconfig1 := bconfig.set_field_mag_z B1
    { field := ext.BuildFieldMap bconfig1 1
      B := B1
      trace := [Call.GetFieldMapNode, Call.GetFieldValue field_file,
        Call.BuildFieldMap bconfig1 1] }
  | none =>
    { field := ext.BuildFieldMap bconfig 1
      B := B
      trace := [Call.GetFieldMapNode, Call.BuildFieldMap bconfig 1] }

/-- The result of a member function of the tracker: the tracker afterwards,
the returned code, and the calls made. -/
structure Outcome (D SF : Type) where
  self : PHTpcTracker D SF
  ret : Int
  trace : List (Call D)

/-- The three long-lived handles and the field strength after the first part
of `process_event`, with the calls made to obtain them. -/
structure Handles (D : Type) where
  mField : Option Ptr
  mB : D
  mTGeoManager : Option Ptr
  mFitter : Option Fitter
  trace : List (Call D)

/-- The first part of `PHTpcTracker::process_event` (PHTpcTracker.cc lines
76-90): the field, the geometry and the fitter are obtained when the member is
still null. -/
def process_event_setup {D SF : Type} (ext : Ext D SF) (self : PHTpcTracker D SF)
    (topNode : PHCompositeNode) : Handles D :=
  -- lines 77-79: `if ( !mField ) { mField = getMagField( topNode, mB ); }`
  let rField : MagFieldResult D :=
    match self.mField with
    | none =>
      let r := getMagField ext topNode self.mB
      { field := r.field, B := r.B, trace := Call.getMagField self.mB :: r.trace }
    | some f => { field := some f, B := self.mB, trace := [] }
  -- lines 83-86: `if ( !mTGeoManager ) { mTGeoManager = GetTGeoManager(topNode); }`
  let rGeo : Option Ptr × List (Call D) :=
    match self.mTGeoManager with
    | none => (PHGeomUtility.GetTGeoManager topNode, [Call.GetTGeoManager])
    | some g => (some g, [])
  -- lines 88-90: `if ( !mFitter && mField && mTGeoManager ) { mFitter = new Fitter(..); }`
  let rFit : Option Fitter × List (Call D) :=
    match self.mFitter, rField.field, rGeo.1 with
    | none, some f, some g => (some ⟨g, f⟩, [Call.newFitter g f])
    | fitter, _, _ => (fitter, [])
  { mField := rField.field
    mB := rField.B
    mTGeoManager := rGeo.1
    mFitter := rFit.1
    trace := rField.trace ++ rGeo.2 ++ rFit.2 }

/-- `PHTpcTracker::process_event` (PHTpcTracker.cc lines 72-155); lines 76-90
are `process_event_setup`. -/
def process_event {D SF : Type} (ext : Ext D SF) (self : PHTpcTracker D SF)
    (topNode : PHCompositeNode) : Outcome D SF :=
  -- lines 76-90: field, geometry, fitter
  let h := process_event_setup ext self topNode
  -- lines 96-98: seed finding
  let cluster_map := topNode.clusterMap
  let candidates := ext.findSeeds self.mSeedFinder cluster_map h.mB
  -- lines 102-104: track following
  let lookup1 := self.mLookup.init cluster_map
  let gtracks :=
    ext.followTracks self.mTrackFollower cluster_map candidates h.mField lookup1 h.mFitter
  -- lines 115-127: vertex reconstruction
  let vertices : List Ptr := if self.mEnableVertexing then ext.findVertices gtracks else []
  let tVertex : List (Call D) :=
    if self.mEnableVertexing then [Call.findVertices gtracks] else []
  -- lines 130-136: event export
  let tExport : List (Call D) :=
    if self.mEnableJsonExport then [Call.exportEvent cluster_map gtracks h.mB] else []
  -- lines 141-150: cleanup
  let lookup2 := lookup1.clear
  { self := { self with
      mField := h.mField, mB := h.mB, mTGeoManager := h.mTGeoManager, mFitter := h.mFitter,
      mLookup := lookup2 }
    ret := Fun4AllReturnCodes.EVENT_OK
    trace := h.trace
      ++ [Call.findSeeds cluster_map h.mB candidates, Call.lookup_init cluster_map,
          Call.followTracks cluster_map candidates h.mField lookup1 h.mFitter gtracks]
      ++ tVertex ++ tExport
      ++ candidates.map Call.delete_candidate
      ++ gtracks.map Call.delete_gtrack
      ++ [Call.lookup_clear]
      ++ vertices.map Call.delete_vertex }

/-- The option setter `PHTpcTracker::set_seed_finder_options` (lines 185-189). -/
def PHTpcTracker.set_seed_finder_options {D SF : Type} (ext : Ext D SF)
    (self : PHTpcTracker D SF) (maxdistance1 tripletangle1 : D) (minhits1 : Nat)
    (maxdistance2 tripletangle2 : D) (minhits2 nthreads : Nat) : PHTpcTracker D SF :=
  { self with
    mSeedFinder := ext.set_options self.mSeedFinder maxdistance1 tripletangle1 minhits1
      maxdistance2 tripletangle2 minhits2 nthreads }

/-- The option setter `PHTpcTracker::set_seed_finder_optimization_remove_loopers`
(lines 191-193). -/
def PHTpcTracker.set_seed_finder_optimization_remove_loopers {D SF : Type} (ext : Ext D SF)
    (self : PHTpcTracker D SF) (opt : Bool) (minr maxr : D) : PHTpcTracker D SF :=
  { self with
    mSeedFinder := ext.set_optimization_remove_loopers self.mSeedFinder opt minr maxr }

/-- The option setter `PHTpcTracker::set_track_follower_optimization_helix`
(lines 195-197). -/
def PHTpcTracker.set_track_follower_optimization_helix {D SF : Type}
    (self : PHTpcTracker D SF) (opt : Bool) : PHTpcTracker D SF :=
  { self with mTrackFollower := self.mTrackFollower.set_optimization_helix opt }

/-- The option setter `PHTpcTracker::set_track_follower_optimization_precise_fit`
(lines 199-201). -/
def PHTpcTracker.set_track_follower_optimization_precise_fit {D SF : Type}
    (self : PHTpcTracker D SF) (opt : Bool) : PHTpcTracker D SF :=
  { self with mTrackFollower := self.mTrackFollower.set_optimization_precise_fit opt }

/-- A run of the framework over consecutive events: `process_event` once per
node tree, the tracker carried over, the traces concatenated. -/
def process_events {D SF : Type} (ext : Ext D SF) :
    PHTpcTracker D SF → List PHCompositeNode → PHTpcTracker D SF × List (Call D)
  | self, [] => (self, [])
  | self, topNode :: rest =>
    let r := process_event ext self topNode
    let rs := process_events ext r.self rest
    (rs.1, r.trace ++ rs.2)

/-- One public operation on a tracker: an event, or one of the four option
setters of PHTpcTracker.cc. -/
inductive Op (D : Type) where
  | process_event (topNode : PHCompositeNode)
  | set_seed_finder_options (maxdistance1 tripletangle1 : D) (minhits1 : Nat)
      (maxdistance2 tripletangle2 : D) (minhits2 nthreads : Nat)
  | set_seed_finder_optimization_remove_loopers (opt : Bool) (minr maxr : D)
  | set_track_follower_optimization_helix (opt : Bool)
  | set_track_follower_optimization_precise_fit (opt : Bool)

/-- The effect of one operation: the tracker afterwards and the calls recorded. -/
def Op.apply {D SF : Type} (ext : Ext D SF) (self : PHTpcTracker D SF) :
    Op D → PHTpcTracker D SF × List (Call D)
  | .process_event topNode =>
    let r := PHTpc.process_event ext self topNode
    (r.self, r.trace)
  | .set_seed_finder_options a b c d e f g =>
    (self.set_seed_finder_options ext a b c d e f g, [])
  | .set_seed_finder_optimization_remove_loopers opt minr maxr =>
    (self.set_seed_finder_optimization_remove_loopers ext opt minr maxr, [])
  | .set_track_follower_optimization_helix opt =>
    (self.set_track_follower_optimization_helix opt, [])
  | .set_track_follower_optimization_precise_fit opt =>
    (self.set_track_follower_optimization_precise_fit opt, [])

/-- A lifetime of the tracker: the operations applied in order. -/
def runOps {D SF : Type} (ext : Ext D SF) :
    PHTpcTracker D SF → List (Op D) → PHTpcTracker D SF × List (Call D)
  | self, [] => (self, [])
  | self, op :: rest =>
    let r := op.apply ext self
    let rs := runOps ext r.1 rest
    (rs.1, r.2 ++ rs.2)

/-! ### Reading a trace -/

/-- The call is `mLookup->init` or `mLookup->clear`. -/
def Call.isLookupCall {D : Type} : Call D → Bool
  | .lookup_init _ => true
  | .lookup_clear => true
  | _ => false

/-- The call is `followTracks`. -/
def Call.isFollowTracks {D : Type} : Call D → Bool
  | .followTracks .. => true
  | _ => false

/-- The call hands seeds or tracks to a collaborator: `followTracks`,
`findVertices` or `exportEvent`. -/
def Call.isUse {D : Type} : Call D → Bool
  | .followTracks .. => true
  | .findVertices _ => true
  | .exportEvent .. => true
  | _ => false

/-- The call destroys a seed candidate or a track. -/
def Call.isDelete {D : Type} : Call D → Bool
  | .delete_candidate _ => true
  | .delete_gtrack _ => true
  | _ => false

/-- The call is `getMagField`. -/
def Call.isGetMagField {D : Type} : Call D → Bool
  | .getMagField _ => true
  | _ => false

/-- The call is `PHGeomUtility::GetTGeoManager`. -/
def Call.isGetTGeoManager {D : Type} : Call D → Bool
  | .GetTGeoManager => true
  | _ => false

/-- The call is `new PHGenFit2::Fitter`. -/
def Call.isNewFitter {D : Type} : Call D → Bool
  | .newFitter .. => true
  | _ => false

/-- The call is `findSeeds`. -/
def Call.isFindSeeds {D : Type} : Call D → Bool
  | .findSeeds .. => true
  | _ => false

/-- The call acquires one of the three long-lived handles: `getMagField`,
`GetTGeoManager` or `new PHGenFit2::Fitter`. -/
def Call.isAcquire {D : Type} (c : Call D) : Bool :=
  c.isGetMagField || c.isGetTGeoManager || c.isNewFitter

/-- The call belongs to the acquisition of the field, the geometry or the
fitter (lines 76-90 and `getMagField`). -/
def Call.isSetup {D : Type} : Call D → Bool
  | .getMagField _ => true
  | .GetFieldMapNode => true
  | .GetFieldValue _ => true
  | .BuildFieldMap .. => true
  | .GetTGeoManager => true
  | .newFitter .. => true
  | _ => false

/-- The configuration handed to `BuildFieldMap`, when the call is one. -/
def Call.builtConfig {D : Type} : Call D → Option (PHFieldConfigv2 D)
  | .BuildFieldMap bconfig _ => some bconfig
  | _ => none

/-- The seed candidate destroyed, when the call is `delete` of a candidate. -/
def Call.deletedCandidate {D : Type} : Call D → Option Ptr
  | .delete_candidate p => some p
  | _ => none

/-- The track destroyed, when the call is `delete` of a track. -/
def Call.deletedTrack {D : Type} : Call D → Option Ptr
  | .delete_gtrack p => some p
  | _ => none

/-- The track list handed to the vertex finder, when the call is `findVertices`. -/
def Call.vertexInput {D : Type} : Call D → Option (List Ptr)
  | .findVertices gtracks => some gtracks
  | _ => none

/-- The track list handed to the exporter, when the call is `exportEvent`. -/
def Call.exportInput {D : Type} : Call D → Option (List Ptr)
  | .exportEvent _ gtracks _ => some gtracks
  | _ => none

/-! ### The follow pass -/

/-- Modelled from the spec: the per-seed steps behind
`PHTpcTrackFollower::followTracks` (PHTpcTrackFollower.cc is absent; the header
only declares `candidate_to_genfit` and `followTrack`). `Trk` is the track
object. `candidate_to_genfit` is the initialisation of §4.1/§4.3, which fails on
a degenerate seed; `followTrack` is the directional follow loop of §4.2, leaving
the grown track; `meetsThreshold` is the minimum-hit acceptance test and
`preciseFit` the optional final refit of §4.4. -/
structure FollowerSteps (Trk : Type) where
  candidate_to_genfit : Bool → Ptr → Option Trk
  followTrack : Trk → PHTpcLookup → Option Fitter → Int → Trk
  meetsThreshold : Trk → Bool
  preciseFit : Trk → Option Fitter → Trk

/-- Modelled from the spec: `PHTpcTrackFollower::propagateTrack`
(PHTpcTrackFollower.cc is absent). §4.4: run §4.1, then §4.2 in both
directions; the track is kept when it meets the minimum-hit acceptance
threshold, and refitted when the precise-fit switch is on. -/
def PHTpcTrackFollower.propagateTrack {Trk : Type} (steps : FollowerSteps Trk)
    (self : PHTpcTrackFollower) (candidate : Ptr) (lookup : PHTpcLookup)
    (fitter : Option Fitter) : Option Trk :=
  match steps.candidate_to_genfit self.mOptHelix candidate with
  | none => none
  | some track =>
    let outward := steps.followTrack track lookup fitter 1
    let both := steps.followTrack outward lookup fitter (-1)
    if steps.meetsThreshold both then
      some (if self.mOptPreciseFit then steps.preciseFit both fitter else both)
    else none

/-- Modelled from the spec: `PHTpcTrackFollower::followTracks`
(PHTpcTrackFollower.cc is absent). §4.4: "For every seed, independently run
§4.1 then §4.2 in both directions; collect every track that meets the
minimum-hit acceptance threshold." The per-seed steps may depend on the
event's cluster map and field, which `followTracks` receives but
`propagateTrack` does not. -/
def PHTpcTrackFollower.followTracks {Trk : Type}
    (steps : Option Ptr → Option Ptr → FollowerSteps Trk)
    (self : PHTpcTrackFollower) (cluster_map : Option Ptr) (candidates : List Ptr)
    (B : Option Ptr) (lookup : PHTpcLookup) (fitter : Option Fitter) : List Trk :=
  candidates.filterMap
    (fun candidate => self.propagateTrack (steps cluster_map B) candidate lookup fitter)

/-- The number of `Fitter` constructions a tracker can still perform: one
while `mFitter` is null, none afterwards. -/
def fitterBudget {D SF : Type} (self : PHTpcTracker D SF) : Nat :=
  match self.mFitter with
  | none => 1
  | some _ => 0

/-- The fitter exists only together with the field and the geometry. -/
def FitterHasDeps {D SF : Type} (self : PHTpcTracker D SF) : Prop :=
  self.mFitter ≠ none → self.mField ≠ none ∧ self.mTGeoManager ≠ none

/-! ### Fixtures: a concrete instance of the collaborators -/

/-- A toy `double`: a rational, or `none` for NaN. -/
abbrev ToyDouble := Option Rat

/-- Division on the toy doubles; NaN propagates, division by zero gives NaN. -/
def ToyDouble.div (a b : ToyDouble) : ToyDouble :=
  match a, b with
  | some x, some y => if y = 0 then none else some (x / y)
  | _, _ => none

/-- A concrete set of collaborators: the field map at address `f` reports
`(0, 0, 7/5000)` (1.4 T in CLHEP units), every cluster map yields the seeds
`[1, 2, 3]`, the follower keeps the first two seeds as tracks `11, 12`, and the
vertex finder reports one vertex `100`. -/
def ext0 : Ext ToyDouble Unit :=
  { zero := some 0
    lit_1_4 := some (7 / 5)
    signaling_NaN := none
    div := ToyDouble.div
    tesla := some (1 / 1000)
    GetFieldValue := fun _ _ Bfield i =>
      if i.val = 2 then some (7 / 5000) else if i.val < 2 then some 0 else Bfield i
    BuildFieldMap := fun _ _ => some 50
    findSeeds := fun _ _ _ => [1, 2, 3]
    followTracks := fun _ _ candidates _ _ _ => (candidates.take 2).map (fun c => c + 10)
    findVertices := fun _ => [100]
    set_options := fun sf _ _ _ _ _ _ _ => sf
    set_optimization_remove_loopers := fun sf _ _ _ => sf }

/-- A freshly constructed tracker over `ext0`. -/
def tracker0 : PHTpcTracker ToyDouble Unit :=
  PHTpcTracker.new ext0 () ⟨false, false⟩ PHTpcLookup.cleared

/-- An event whose node tree holds a field map (at `40`), a geometry manager
(at `60`) and a cluster container (at `70`). -/
def nodeFull : PHCompositeNode :=
  { fieldMapNode := some 40, tGeoManager := some 60, clusterMap := some 70 }

/-- An event whose node tree holds no geometry manager (and no field map). -/
def nodeNoGeo : PHCompositeNode :=
  { fieldMapNode := none, tGeoManager := none, clusterMap := some 70 }

/-- The tracker after a first event with field map and geometry present: all
three handles are in place. -/
def trackerReady : PHTpcTracker ToyDouble Unit :=
  (process_event ext0 tracker0 nodeFull).self

/-- A lifetime: an event without geometry, a switch, then two full events. -/
def lifetime0 : List (Op ToyDouble) :=
  [Op.process_event nodeNoGeo, Op.set_track_follower_optimization_helix true,
    Op.process_event nodeFull, Op.process_event nodeFull]

/-! ### Helper lemmas on traces -/

theorem filter_map_eq_nil {α β : Type} (p : β → Bool) (f : α → β) (l : List α)
    (h : ∀ a, p (f a) = false) : (l.map f).filter p = [] := by
  induction l with
  | nil => rfl
  | cons a l ih => simp [List.filter, h a, ih]

theorem filterMap_map_eq_nil {α β γ : Type} (g : β → Option γ) (f : α → β) (l : List α)
    (h : ∀ a, g (f a) = none) : (l.map f).filterMap g = [] := by
  induction l with
  | nil => rfl
  | cons a l ih => simp [List.filterMap, h a, ih]

theorem filterMap_map_eq_self {α β : Type} (g : β → Option α) (f : α → β) (l : List α)
    (h : ∀ a, g (f a) = some a) : (l.map f).filterMap g = l := by
  induction l with
  | nil => rfl
  | cons a l ih => simp [List.filterMap, h a, ih]

theorem filter_eq_nil_of_all {α : Type} (q p : α → Bool) (l : List α)
    (hl : l.all q = true) (h : ∀ a, q a = true → p a = false) : l.filter p = [] := by
  induction l with
  | nil => rfl
  | cons a l ih =>
    simp only [List.all_cons, Bool.and_eq_true] at hl
    simp [List.filter, h a hl.1, ih hl.2]

theorem filterMap_eq_nil_of_all {α β : Type} (q : α → Bool) (g : α → Option β) (l : List α)
    (hl : l.all q = true) (h : ∀ a, q a = true → g a = none) : l.filterMap g = [] := by
  induction l with
  | nil => rfl
  | cons a l ih =>
    simp only [List.all_cons, Bool.and_eq_true] at hl
    simp [List.filterMap, h a hl.1, ih hl.2]

theorem all_of_all {α : Type} (q p : α → Bool) (l : List α)
    (hl : l.all q = true) (h : ∀ a, q a = true → p a = true) : l.all p = true := by
  induction l with
  | nil => rfl
  | cons a l ih =>
    simp only [List.all_cons, Bool.and_eq_true] at hl ⊢
    exact ⟨h a hl.1, ih hl.2⟩

theorem all_map_true {α β : Type} (p : β → Bool) (f : α → β) (l : List α)
    (h : ∀ a, p (f a) = true) : (l.map f).all p = true := by
  induction l with
  | nil => rfl
  | cons a l ih => simp only [List.map_cons, List.all_cons, h a, ih, Bool.and_self]

/-! ### The option switches (C5) -/

/-- C5: the two optimization switches are independent. On the follower,
`set_optimization_helix(opt)` makes the helix flag `opt` and keeps the
precise-fit flag, and `set_optimization_precise_fit(opt)` makes the precise-fit
flag `opt` and keeps the helix flag. The tracker's two forwarding setters set
exactly the corresponding follower flag and leave the other flag and every
other member of the tracker as they were. -/
theorem C5_switches_independent {D SF : Type} (f : PHTpcTrackFollower)
    (t : PHTpcTracker D SF) (opt : Bool) :
    ((f.set_optimization_helix opt).mOptHelix = opt
      ∧ (f.set_optimization_helix opt).mOptPreciseFit = f.mOptPreciseFit)
    ∧ ((f.set_optimization_precise_fit opt).mOptPreciseFit = opt
      ∧ (f.set_optimization_precise_fit opt).mOptHelix = f.mOptHelix)
    ∧ t.set_track_follower_optimization_helix opt
        = { t with mTrackFollower := ⟨opt, t.mTrackFollower.mOptPreciseFit⟩ }
    ∧ t.set_track_follower_optimization_precise_fit opt
        = { t with mTrackFollower := ⟨t.mTrackFollower.mOptHelix, opt⟩ } :=
  ⟨⟨rfl, rfl⟩, ⟨rfl, rfl⟩, rfl, rfl⟩

/-! ### `getMagField` (C9) -/

/-- C9: `getMagField` keeps the reported field strength and the built field
consistent. Exactly one configuration is handed to `BuildFieldMap`; it is
`(0, 0, B')` where `B'` is the value of `B` on return, and the returned field
is what `BuildFieldMap` makes of it. Without a field map `B'` is the incoming
`B`; with a field map `B'` is the third component of what `GetFieldValue`
reports at the point `(0, 0, 0, 0)`, divided by `tesla`, and the first two
components play no part: a field map that differs only in them gives the same
result. -/
theorem C9_getMagField_consistent {D SF : Type} (ext : Ext D SF)
    (topNode : PHCompositeNode) (B : D) :
    ((getMagField ext topNode B).trace.filterMap Call.builtConfig
        = [⟨ext.zero, ext.zero, (getMagField ext topNode B).B⟩]
      ∧ (getMagField ext topNode B).field
        = ext.BuildFieldMap ⟨ext.zero, ext.zero, (getMagField ext topNode B).B⟩ 1)
    ∧ (topNode.fieldMapNode = none → (getMagField ext topNode B).B = B)
    ∧ (∀ field_file, topNode.fieldMapNode = some field_file →
        (getMagField ext topNode B).B
          = ext.div (ext.GetFieldValue field_file (fun _ => ext.zero)
              (fun _ => ext.signaling_NaN) 2) ext.tesla)
    ∧ (∀ g : Ptr → (Fin 4 → D) → (Fin 6 → D) → (Fin 6 → D),
        (∀ field_file point Bfield, g field_file point Bfield 2
          = ext.GetFieldValue field_file point Bfield 2) →
        getMagField { ext with GetFieldValue := g } topNode B = getMagField ext topNode B) := by
  cases topNode with
  | mk fieldMapNode tGeoManager clusterMap =>
    cases fieldMapNode with
    | none =>
      refine ⟨⟨rfl, rfl⟩, fun _ => rfl, fun _ h => ?_, fun _ _ => rfl⟩
      cases h
    | some ff =>
      refine ⟨⟨rfl, rfl⟩, fun h => ?_, fun _ h => ?_, fun g hg => ?_⟩
      · cases h
      · cases h
        rfl
      · simp [getMagField, PHFieldUtility.GetFieldMapNode, PHFieldConfigv2.set_field_mag_z, hg]

/-- C9 at a concrete event: the field map at `40` reports `Bz = 7/5000`, the
incoming `B` is `1.4`; `B` on return is `Bz / tesla`, and a map that reports
other values for `Bx, By` gives the same result. -/
theorem C9_getMagField_consistent_witness :
    nodeFull.fieldMapNode = some 40
    ∧ (getMagField ext0 nodeFull (some (7 / 5))).B
        = ext0.div (ext0.GetFieldValue 40 (fun _ => ext0.zero)
            (fun _ => ext0.signaling_NaN) 2) ext0.tesla
    ∧ getMagField { ext0 with GetFieldValue := fun _ _ _ _ => some (7 / 5000) } nodeFull
        (some (7 / 5)) = getMagField ext0 nodeFull (some (7 / 5)) :=
  ⟨rfl, (C9_getMagField_consistent ext0 nodeFull (some (7 / 5))).2.2.1 40 rfl,
    (C9_getMagField_consistent ext0 nodeFull (some (7 / 5))).2.2.2
      (fun _ _ _ _ => some (7 / 5000)) (fun _ _ _ => rfl)⟩

/-! ### The follow pass is per-seed independent (C3) -/

/-- C3: `followTracks` is per-seed independent. For fixed cluster map, field,
lookup and fitter, calling `followTracks` once per seed with the singleton list
and concatenating the results gives the same finished tracks (in the same
order) as one call with the whole seed list. -/
theorem C3_followTracks_per_seed {Trk : Type}
    (steps : Option Ptr → Option Ptr → FollowerSteps Trk) (self : PHTpcTrackFollower)
    (cluster_map : Option Ptr) (seeds : List Ptr) (B : Option Ptr) (lookup : PHTpcLookup)
    (fitter : Option Fitter) :
    (seeds.map (fun s => self.followTracks steps cluster_map [s] B lookup fitter)).flatten
      = self.followTracks steps cluster_map seeds B lookup fitter := by
  induction seeds with
  | nil => rfl
  | cons s rest ih =>
    simp only [List.map_cons, List.flatten_cons, ih]
    simp only [PHTpcTrackFollower.followTracks, List.filterMap_cons, List.filterMap_nil]
    cases self.propagateTrack (steps cluster_map B) s lookup fitter <;> rfl

/-! ### The event always ends normally (C4) -/

/-- C4: failed seeds or tracks never fail the event. Whatever list of seeds
`findSeeds` returns and whatever list of tracks `followTracks` returns (the
empty list included), `process_event` returns `EVENT_OK`. -/
theorem C4_event_always_ok {D SF : Type} (ext : Ext D SF) (self : PHTpcTracker D SF)
    (topNode : PHCompositeNode) (seeds tracks : List Ptr) :
    (process_event
        { ext with
          findSeeds := fun _ _ _ => seeds
          followTracks := fun _ _ _ _ _ _ => tracks } self topNode).ret
      = Fun4AllReturnCodes.EVENT_OK
    ∧ (process_event { ext with followTracks := fun _ _ _ _ _ _ => [] } self topNode).ret
      = Fun4AllReturnCodes.EVENT_OK
    ∧ (process_event ext self topNode).ret = Fun4AllReturnCodes.EVENT_OK :=
  ⟨rfl, rfl, rfl⟩

/-! ### The shape of an event's trace -/

/-- The calls of one event: first the acquisition calls (only those), then seed
finding, lookup initialisation and the follow pass, then vertexing and export
when enabled, then the cleanup. `candidates` and `gtracks` are the local
variables of `process_event`. -/
theorem process_event_trace {D SF : Type} (ext : Ext D SF) (self : PHTpcTracker D SF)
    (topNode : PHCompositeNode) :
    ∃ (acq : List (Call D)) (candidates gtracks : List Ptr),
      acq.all Call.isSetup = true
      ∧ candidates = ext.findSeeds self.mSeedFinder topNode.clusterMap
          (process_event ext self topNode).self.mB
      ∧ gtracks = ext.followTracks self.mTrackFollower topNode.clusterMap candidates
          (process_event ext self topNode).self.mField (self.mLookup.init topNode.clusterMap)
          (process_event ext self topNode).self.mFitter
      ∧ (process_event ext self topNode).trace
        = acq
          ++ ([Call.findSeeds topNode.clusterMap (process_event ext self topNode).self.mB
                candidates,
              Call.lookup_init topNode.clusterMap,
              Call.followTracks topNode.clusterMap candidates
                (process_event ext self topNode).self.mField
                (self.mLookup.init topNode.clusterMap)
                (process_event ext self topNode).self.mFitter gtracks]
            ++ (if self.mEnableVertexing then [Call.findVertices gtracks] else [])
            ++ (if self.mEnableJsonExport then
                  [Call.exportEvent topNode.clusterMap gtracks
                    (process_event ext self topNode).self.mB]
                else []))
          ++ (candidates.map Call.delete_candidate
            ++ gtracks.map Call.delete_gtrack
            ++ [Call.lookup_clear]
            ++ (if self.mEnableVertexing then ext.findVertices gtracks
                else []).map Call.delete_vertex) := by
  refine ⟨(process_event_setup ext self topNode).trace, _, _, ?_, rfl, rfl, ?_⟩
  · rcases self with ⟨sf, tf, lk, fit, geo, fld, b, ev, ej⟩
    rcases topNode with ⟨fm, tg, cm⟩
    cases fld <;> cases geo <;> cases fit <;> cases fm <;> cases tg <;>
      simp [process_event_setup, getMagField, PHFieldUtility.GetFieldMapNode,
        PHGeomUtility.GetTGeoManager, Call.isSetup] <;>
      split <;> simp [Call.isSetup]
  · simp only [process_event, List.append_assoc]

/-- The lookup calls of one event are one `init` with the event's cluster map,
then one `clear`. -/
theorem process_event_lookup_calls {D SF : Type} (ext : Ext D SF)
    (self : PHTpcTracker D SF) (topNode : PHCompositeNode) :
    (process_event ext self topNode).trace.filter Call.isLookupCall
      = [Call.lookup_init topNode.clusterMap, Call.lookup_clear] := by
  obtain ⟨acq, candidates, gtracks, hacq, -, -, ht⟩ := process_event_trace ext self topNode
  rw [ht]
  have h0 := filter_eq_nil_of_all Call.isSetup Call.isLookupCall acq hacq
    (fun a ha => by cases a <;> first | rfl | cases ha)
  cases self.mEnableVertexing <;> cases self.mEnableJsonExport <;>
    simp [List.filter_append, h0, Call.isLookupCall, filter_map_eq_nil, List.filter]

/-! ### Data flow of one event (C6) -/

/-- C6: `process_event` realises the stated data flow. With `candidates` the
list `findSeeds` returned for this event and `gtracks` the list `followTracks`
returned: `findSeeds` is called once; the lookup is initialised with the
event's cluster map; `followTracks` is called exactly once, with that same
cluster map, with `candidates`, and with the tracker's field, (initialised)
lookup and fitter; the vertex finder is called only when vertexing is enabled
and the exporter only when JSON export is enabled, each with exactly
`gtracks`. -/
theorem C6_data_flow {D SF : Type} (ext : Ext D SF) (self : PHTpcTracker D SF)
    (topNode : PHCompositeNode) :
    ∃ candidates gtracks : List Ptr,
      candidates = ext.findSeeds self.mSeedFinder topNode.clusterMap
          (process_event ext self topNode).self.mB
      ∧ (process_event ext self topNode).trace.filter Call.isFindSeeds
        = [Call.findSeeds topNode.clusterMap (process_event ext self topNode).self.mB
            candidates]
      ∧ (process_event ext self topNode).trace.filter Call.isLookupCall
        = [Call.lookup_init topNode.clusterMap, Call.lookup_clear]
      ∧ gtracks = ext.followTracks self.mTrackFollower topNode.clusterMap candidates
          (process_event ext self topNode).self.mField (self.mLookup.init topNode.clusterMap)
          (process_event ext self topNode).self.mFitter
      ∧ (process_event ext self topNode).trace.filter Call.isFollowTracks
        = [Call.followTracks topNode.clusterMap candidates
            (process_event ext self topNode).self.mField
            (self.mLookup.init topNode.clusterMap)
            (process_event ext self topNode).self.mFitter gtracks]
      ∧ (process_event ext self topNode).trace.filterMap Call.vertexInput
        = (if self.mEnableVertexing then [gtracks] else [])
      ∧ (process_event ext self topNode).trace.filterMap Call.exportInput
        = (if self.mEnableJsonExport then [gtracks] else []) := by
  obtain ⟨acq, candidates, gtracks, hacq, hc, hg, ht⟩ := process_event_trace ext self topNode
  refine ⟨candidates, gtracks, hc, ?_, ?_, hg, ?_, ?_, ?_⟩ <;> rw [ht]
  · have h0 := filter_eq_nil_of_all Call.isSetup Call.isFindSeeds acq hacq
      (fun a ha => by cases a <;> first | rfl | cases ha)
    cases self.mEnableVertexing <;> cases self.mEnableJsonExport <;>
      simp [List.filter_append, h0, Call.isFindSeeds, filter_map_eq_nil, List.filter]
  · rw [← ht]
    exact process_event_lookup_calls ext self topNode
  · have h0 := filter_eq_nil_of_all Call.isSetup Call.isFollowTracks acq hacq
      (fun a ha => by cases a <;> first | rfl | cases ha)
    cases self.mEnableVertexing <;> cases self.mEnableJsonExport <;>
      simp [List.filter_append, h0, Call.isFollowTracks, filter_map_eq_nil, List.filter]
  · have h0 := filterMap_eq_nil_of_all Call.isSetup Call.vertexInput acq hacq
      (fun a ha => by cases a <;> first | rfl | cases ha)
    cases self.mEnableVertexing <;> cases self.mEnableJsonExport <;>
      simp [List.filterMap_append, h0, Call.vertexInput, filterMap_map_eq_nil, List.filterMap]
  · have h0 := filterMap_eq_nil_of_all Call.isSetup Call.exportInput acq hacq
      (fun a ha => by cases a <;> first | rfl | cases ha)
    cases self.mEnableVertexing <;> cases self.mEnableJsonExport <;>
      simp [List.filterMap_append, h0, Call.exportInput, filterMap_map_eq_nil, List.filterMap]

/-! ### Ownership of seeds and tracks (C7) -/

/-- C7: the orchestrator destroys what it owns exactly once and only after its
last use. The trace of an event splits into `pre ++ post`: `pre` holds the
`followTracks` call and no deletion; `post` holds no `followTracks`,
`findVertices` or `exportEvent` call; and within `post` the seed candidates
deleted are, one deletion per entry, the list `findSeeds` returned, and the
tracks deleted are, one deletion per entry, the list `followTracks` returned. -/
theorem C7_destroy_once_after_use {D SF : Type} (ext : Ext D SF)
    (self : PHTpcTracker D SF) (topNode : PHCompositeNode) :
    ∃ (candidates gtracks : List Ptr) (pre post : List (Call D)),
      candidates = ext.findSeeds self.mSeedFinder topNode.clusterMap
          (process_event ext self topNode).self.mB
      ∧ gtracks = ext.followTracks self.mTrackFollower topNode.clusterMap candidates
          (process_event ext self topNode).self.mField (self.mLookup.init topNode.clusterMap)
          (process_event ext self topNode).self.mFitter
      ∧ (process_event ext self topNode).trace = pre ++ post
      ∧ pre.all (fun c => !c.isDelete) = true
      ∧ (pre.filter Call.isFollowTracks).length = 1
      ∧ (pre.filterMap Call.vertexInput).length = (if self.mEnableVertexing then 1 else 0)
      ∧ (pre.filterMap Call.exportInput).length = (if self.mEnableJsonExport then 1 else 0)
      ∧ post.all (fun c => !c.isUse) = true
      ∧ post.filterMap Call.deletedCandidate = candidates
      ∧ post.filterMap Call.deletedTrack = gtracks := by
  obtain ⟨acq, candidates, gtracks, hacq, hc, hg, ht⟩ := process_event_trace ext self topNode
  refine ⟨candidates, gtracks, _, _, hc, hg, ht, ?_, ?_, ?_, ?_, ?_, ?_, ?_⟩
  · have h0 := all_of_all Call.isSetup (fun c => !c.isDelete) acq hacq
      (fun a ha => by cases a <;> first | rfl | cases ha)
    cases self.mEnableVertexing <;> cases self.mEnableJsonExport <;>
      simp only [List.all_append, h0] <;> rfl
  · have h0 := filter_eq_nil_of_all Call.isSetup Call.isFollowTracks acq hacq
      (fun a ha => by cases a <;> first | rfl | cases ha)
    cases self.mEnableVertexing <;> cases self.mEnableJsonExport <;>
      simp [List.filter_append, h0, Call.isFollowTracks, List.filter]
  · have h0 := filterMap_eq_nil_of_all Call.isSetup Call.vertexInput acq hacq
      (fun a ha => by cases a <;> first | rfl | cases ha)
    cases self.mEnableVertexing <;> cases self.mEnableJsonExport <;>
      simp [List.filterMap_append, h0, Call.vertexInput, List.filterMap]
  · have h0 := filterMap_eq_nil_of_all Call.isSetup Call.exportInput acq hacq
      (fun a ha => by cases a <;> first | rfl | cases ha)
    cases self.mEnableVertexing <;> cases self.mEnableJsonExport <;>
      simp [List.filterMap_append, h0, Call.exportInput, List.filterMap]
  · have h1 := all_map_true (fun c : Call D => !c.isUse) Call.delete_candidate candidates
      (fun _ => rfl)
    have h2 := all_map_true (fun c : Call D => !c.isUse) Call.delete_gtrack gtracks
      (fun _ => rfl)
    have h3 := all_map_true (fun c : Call D => !c.isUse) Call.delete_vertex
      (if self.mEnableVertexing then ext.findVertices gtracks else []) (fun _ => rfl)
    simp only [List.all_append, h1, h2, h3]
    rfl
  · have h1 := filterMap_map_eq_self (Call.deletedCandidate (D := D)) Call.delete_candidate
      candidates (fun _ => rfl)
    have h2 := filterMap_map_eq_nil (Call.deletedCandidate (D := D)) Call.delete_gtrack
      gtracks (fun _ => rfl)
    have h3 := filterMap_map_eq_nil (Call.deletedCandidate (D := D)) Call.delete_vertex
      (if self.mEnableVertexing then ext.findVertices gtracks else []) (fun _ => rfl)
    simp only [List.filterMap_append, h1, h2, h3, List.append_nil]
    exact List.append_nil candidates
  · have h1 := filterMap_map_eq_nil (Call.deletedTrack (D := D)) Call.delete_candidate
      candidates (fun _ => rfl)
    have h2 := filterMap_map_eq_self (Call.deletedTrack (D := D)) Call.delete_gtrack
      gtracks (fun _ => rfl)
    have h3 := filterMap_map_eq_nil (Call.deletedTrack (D := D)) Call.delete_vertex
      (if self.mEnableVertexing then ext.findVertices gtracks else []) (fun _ => rfl)
    simp only [List.filterMap_append, h1, h2, h3, List.append_nil, List.nil_append]
    exact List.append_nil gtracks

/-! ### The lookup is initialised and cleared once per event (C2) -/

/-- The lookup calls of a run of events are one `init`, `clear` pair per event. -/
theorem process_events_lookup_calls {D SF : Type} (ext : Ext D SF)
    (nodes : List PHCompositeNode) (self : PHTpcTracker D SF) :
    (process_events ext self nodes).2.filter Call.isLookupCall
      = (nodes.map (fun topNode =>
          [Call.lookup_init topNode.clusterMap, Call.lookup_clear])).flatten := by
  induction nodes generalizing self with
  | nil => rfl
  | cons topNode rest ih =>
    simp only [process_events, List.filter_append, ih, process_event_lookup_calls,
      List.map_cons, List.flatten_cons]

/-- After a run of at least one event the lookup is cleared. -/
theorem process_events_lookup_cleared {D SF : Type} (ext : Ext D SF)
    (nodes : List PHCompositeNode) (topNode : PHCompositeNode) (self : PHTpcTracker D SF) :
    (process_events ext self (topNode :: nodes)).1.mLookup = PHTpcLookup.cleared := by
  induction nodes generalizing self topNode with
  | nil => rfl
  | cons next rest ih => exact ih next (process_event ext self topNode).self

/-- C2: in every execution of `process_event` the lookup is populated exactly
once, before `followTracks`, and cleared exactly once, after `followTracks`,
vertexing and export, with no lookup call in between. The trace is
`pre ++ [init] ++ mid ++ [clear] ++ post` where `pre` and `post` hold no lookup
call and no `followTracks`, `findVertices` or `exportEvent` call, and `mid`
holds the `followTracks` call and no lookup call. The lookup is cleared when
the event ends. Over a run of events the lookup calls are `init, clear` once
per event, in order, and the lookup is cleared at the end of the run. -/
theorem C2_lookup_init_clear {D SF : Type} (ext : Ext D SF) (self : PHTpcTracker D SF)
    (topNode : PHCompositeNode) (nodes : List PHCompositeNode) :
    (∃ pre mid post : List (Call D),
      (process_event ext self topNode).trace
        = pre ++ [Call.lookup_init topNode.clusterMap] ++ mid ++ [Call.lookup_clear] ++ post
      ∧ pre.all (fun c => !c.isLookupCall && !c.isUse) = true
      ∧ mid.all (fun c => !c.isLookupCall) = true
      ∧ (mid.filter Call.isFollowTracks).length = 1
      ∧ post.all (fun c => !c.isLookupCall && !c.isUse) = true)
    ∧ (process_event ext self topNode).self.mLookup = PHTpcLookup.cleared
    ∧ (process_events ext self nodes).2.filter Call.isLookupCall
      = (nodes.map (fun n => [Call.lookup_init n.clusterMap, Call.lookup_clear])).flatten
    ∧ (process_events ext self (topNode :: nodes)).1.mLookup = PHTpcLookup.cleared := by
  refine ⟨?_, rfl, process_events_lookup_calls ext nodes self,
    process_events_lookup_cleared ext nodes topNode self⟩
  obtain ⟨acq, candidates, gtracks, hacq, -, -, ht⟩ := process_event_trace ext self topNode
  refine ⟨acq ++ [Call.findSeeds topNode.clusterMap (process_event ext self topNode).self.mB
      candidates],
    [Call.followTracks topNode.clusterMap candidates
        (process_event ext self topNode).self.mField (self.mLookup.init topNode.clusterMap)
        (process_event ext self topNode).self.mFitter gtracks]
      ++ (if self.mEnableVertexing then [Call.findVertices gtracks] else [])
      ++ (if self.mEnableJsonExport then
            [Call.exportEvent topNode.clusterMap gtracks
              (process_event ext self topNode).self.mB]
          else [])
      ++ candidates.map Call.delete_candidate ++ gtracks.map Call.delete_gtrack,
    (if self.mEnableVertexing then ext.findVertices gtracks else []).map Call.delete_vertex,
    ?_, ?_, ?_, ?_, ?_⟩
  · rw [ht]
    simp only [List.append_assoc, List.cons_append, List.nil_append]
  · have h0 := all_of_all Call.isSetup (fun c => !c.isLookupCall && !c.isUse) acq hacq
      (fun a ha => by cases a <;> first | rfl | cases ha)
    simp only [List.all_append, h0]
    rfl
  · have h1 := all_map_true (fun c : Call D => !c.isLookupCall) Call.delete_candidate
      candidates (fun _ => rfl)
    have h2 := all_map_true (fun c : Call D => !c.isLookupCall) Call.delete_gtrack gtracks
      (fun _ => rfl)
    cases self.mEnableVertexing <;> cases self.mEnableJsonExport <;>
      simp only [List.all_append, h1, h2] <;> rfl
  · have h1 := filter_map_eq_nil (Call.isFollowTracks (D := D)) Call.delete_candidate
      candidates (fun _ => rfl)
    have h2 := filter_map_eq_nil (Call.isFollowTracks (D := D)) Call.delete_gtrack gtracks
      (fun _ => rfl)
    cases self.mEnableVertexing <;> cases self.mEnableJsonExport <;>
      simp only [List.filter_append, h1, h2] <;> rfl
  · exact all_map_true _ _ _ (fun _ => rfl)

/-! ### Acquisition of the handles -/

/-- Calls of a kind that only the setup part makes are found by looking at the
setup part alone. -/
theorem process_event_filter_setup {D SF : Type} (ext : Ext D SF)
    (self : PHTpcTracker D SF) (topNode : PHCompositeNode) (p : Call D → Bool)
    (hp : ∀ c : Call D, c.isSetup = false → p c = false) :
    (process_event ext self topNode).trace.filter p
      = (process_event_setup ext self topNode).trace.filter p := by
  have hq : ∀ c : Call D, (!c.isSetup) = true → p c = false := fun c hc =>
    hp c (by simpa using hc)
  have h1 := fun l => all_map_true (fun c : Call D => !c.isSetup) Call.delete_candidate l
    (fun _ => rfl)
  have h2 := fun l => all_map_true (fun c : Call D => !c.isSetup) Call.delete_gtrack l
    (fun _ => rfl)
  have h3 := fun l => all_map_true (fun c : Call D => !c.isSetup) Call.delete_vertex l
    (fun _ => rfl)
  simp only [process_event, List.append_assoc]
  rw [List.filter_append]
  refine List.append_right_eq_self.mpr (filter_eq_nil_of_all (fun c => !c.isSetup) p _ ?_ hq)
  cases self.mEnableVertexing <;> cases self.mEnableJsonExport <;>
    simp only [List.all_append, h1, h2, h3] <;> rfl

/-- With all three handles in place the setup part does nothing. -/
theorem process_event_setup_idle {D SF : Type} (ext : Ext D SF)
    (self : PHTpcTracker D SF) (topNode : PHCompositeNode)
    (hField : self.mField ≠ none) (hGeo : self.mTGeoManager ≠ none)
    (hFit : self.mFitter ≠ none) :
    process_event_setup ext self topNode
      = ⟨self.mField, self.mB, self.mTGeoManager, self.mFitter, []⟩ := by
  rcases self with ⟨sf, tf, lk, fit, geo, fld, b, ev, ej⟩
  cases fld with
  | none => exact absurd rfl hField
  | some f =>
    cases geo with
    | none => exact absurd rfl hGeo
    | some g =>
      cases fit with
      | none => exact absurd rfl hFit
      | some t => rfl

/-- With all three handles in place an event keeps them and the field
strength, and makes no acquisition call. -/
theorem process_event_handles_fixed {D SF : Type} (ext : Ext D SF)
    (self : PHTpcTracker D SF) (topNode : PHCompositeNode)
    (hField : self.mField ≠ none) (hGeo : self.mTGeoManager ≠ none)
    (hFit : self.mFitter ≠ none) :
    (process_event ext self topNode).self.mField = self.mField
    ∧ (process_event ext self topNode).self.mTGeoManager = self.mTGeoManager
    ∧ (process_event ext self topNode).self.mFitter = self.mFitter
    ∧ (process_event ext self topNode).self.mB = self.mB
    ∧ (process_event ext self topNode).trace.filter Call.isAcquire = [] := by
  have h := process_event_setup_idle ext self topNode hField hGeo hFit
  have ht := process_event_filter_setup ext self topNode Call.isAcquire
    (fun c hc => by cases c <;> first | rfl | cases hc)
  refine ⟨?_, ?_, ?_, ?_, ?_⟩
  · show (process_event_setup ext self topNode).mField = _
    rw [h]
  · show (process_event_setup ext self topNode).mTGeoManager = _
    rw [h]
  · show (process_event_setup ext self topNode).mFitter = _
    rw [h]
  · show (process_event_setup ext self topNode).mB = _
    rw [h]
  · rw [ht, h]
    rfl

/-- With all three handles in place a run of events keeps them and the field
strength, and makes no acquisition call. -/
theorem process_events_handles_fixed {D SF : Type} (ext : Ext D SF)
    (nodes : List PHCompositeNode) (self : PHTpcTracker D SF)
    (hField : self.mField ≠ none) (hGeo : self.mTGeoManager ≠ none)
    (hFit : self.mFitter ≠ none) :
    (process_events ext self nodes).1.mField = self.mField
    ∧ (process_events ext self nodes).1.mTGeoManager = self.mTGeoManager
    ∧ (process_events ext self nodes).1.mFitter = self.mFitter
    ∧ (process_events ext self nodes).1.mB = self.mB
    ∧ (process_events ext self nodes).2.filter Call.isAcquire = [] := by
  induction nodes generalizing self with
  | nil => exact ⟨rfl, rfl, rfl, rfl, rfl⟩
  | cons topNode rest ih =>
    obtain ⟨h1, h2, h3, h4, h5⟩ :=
      process_event_handles_fixed ext self topNode hField hGeo hFit
    obtain ⟨k1, k2, k3, k4, k5⟩ := ih (process_event ext self topNode).self
      (by rw [h1]; exact hField) (by rw [h2]; exact hGeo) (by rw [h3]; exact hFit)
    refine ⟨?_, ?_, ?_, ?_, ?_⟩
    · exact k1.trans h1
    · exact k2.trans h2
    · exact k3.trans h3
    · exact k4.trans h4
    · simp only [process_events, List.filter_append, h5, k5, List.append_nil]

/-- The acquisition calls of the setup part, by kind. -/
theorem process_event_setup_calls {D SF : Type} (ext : Ext D SF)
    (self : PHTpcTracker D SF) (topNode : PHCompositeNode) :
    (process_event_setup ext self topNode).trace.filter Call.isGetMagField
        = (match self.mField with
          | none => [Call.getMagField self.mB]
          | some _ => [])
    ∧ (process_event_setup ext self topNode).trace.filter Call.isGetTGeoManager
        = (match self.mTGeoManager with
          | none => [Call.GetTGeoManager]
          | some _ => [])
    ∧ (process_event_setup ext self topNode).trace.filter Call.isNewFitter
        = (match self.mFitter, (process_event_setup ext self topNode).mField,
              (process_event_setup ext self topNode).mTGeoManager with
          | none, some f, some g => [Call.newFitter g f]
          | _, _, _ => []) := by
  rcases self with ⟨sf, tf, lk, fit, geo, fld, b, ev, ej⟩
  rcases topNode with ⟨fm, tg, cm⟩
  refine ⟨?_, ?_, ?_⟩ <;>
    cases fld <;> cases geo <;> cases fit <;> cases fm <;> cases tg <;>
      simp [process_event_setup, getMagField, PHFieldUtility.GetFieldMapNode,
        PHGeomUtility.GetTGeoManager, PHFieldConfigv2.set_field_mag_z, List.filter,
        Call.isGetMagField, Call.isGetTGeoManager, Call.isNewFitter] <;>
      split <;> simp_all [List.filter, Call.isGetMagField, Call.isGetTGeoManager,
        Call.isNewFitter]

/-- The `followTracks` calls of one event: exactly one, with the event's
cluster map, the seeds just found, and the tracker's field, lookup and fitter. -/
theorem process_event_follow_calls {D SF : Type} (ext : Ext D SF)
    (self : PHTpcTracker D SF) (topNode : PHCompositeNode) :
    (process_event ext self topNode).trace.filter Call.isFollowTracks
      = [Call.followTracks topNode.clusterMap
          (ext.findSeeds self.mSeedFinder topNode.clusterMap
            (process_event ext self topNode).self.mB)
          (process_event ext self topNode).self.mField
          (self.mLookup.init topNode.clusterMap)
          (process_event ext self topNode).self.mFitter
          (ext.followTracks self.mTrackFollower topNode.clusterMap
            (ext.findSeeds self.mSeedFinder topNode.clusterMap
              (process_event ext self topNode).self.mB)
            (process_event ext self topNode).self.mField
            (self.mLookup.init topNode.clusterMap)
            (process_event ext self topNode).self.mFitter)] := by
  obtain ⟨acq, candidates, gtracks, hacq, hc, hg, ht⟩ := process_event_trace ext self topNode
  rw [ht, ← hc, ← hg]
  have h0 := filter_eq_nil_of_all Call.isSetup Call.isFollowTracks acq hacq
    (fun a ha => by cases a <;> first | rfl | cases ha)
  cases self.mEnableVertexing <;> cases self.mEnableJsonExport <;>
    simp [List.filter_append, h0, Call.isFollowTracks, filter_map_eq_nil, List.filter]

/-! ### Lazy acquisition and reuse of the handles (C8) -/

/-- C8: the field, geometry and fitter handles are acquired lazily and then
reused. In one event `getMagField` is called exactly when the field handle is
null, `GetTGeoManager` exactly when the geometry handle is null, and a `Fitter`
is constructed exactly when the fitter handle is null while field and geometry
are (now) present. When all three handles are non-null, a run of any number of
events leaves the three handles and `mB` as they were and makes no acquisition
call at all. -/
theorem C8_lazy_handles {D SF : Type} (ext : Ext D SF) (self : PHTpcTracker D SF)
    (topNode : PHCompositeNode) (nodes : List PHCompositeNode) :
    (process_event ext self topNode).trace.filter Call.isGetMagField
        = (match self.mField with
          | none => [Call.getMagField self.mB]
          | some _ => [])
    ∧ (process_event ext self topNode).trace.filter Call.isGetTGeoManager
        = (match self.mTGeoManager with
          | none => [Call.GetTGeoManager]
          | some _ => [])
    ∧ (process_event ext self topNode).trace.filter Call.isNewFitter
        = (match self.mFitter, (process_event ext self topNode).self.mField,
              (process_event ext self topNode).self.mTGeoManager with
          | none, some f, some g => [Call.newFitter g f]
          | _, _, _ => [])
    ∧ (self.mField ≠ none → self.mTGeoManager ≠ none → self.mFitter ≠ none →
        (process_events ext self nodes).1.mField = self.mField
        ∧ (process_events ext self nodes).1.mTGeoManager = self.mTGeoManager
        ∧ (process_events ext self nodes).1.mFitter = self.mFitter
        ∧ (process_events ext self nodes).1.mB = self.mB
        ∧ (process_events ext self nodes).2.filter Call.isAcquire = []) := by
  obtain ⟨h1, h2, h3⟩ := process_event_setup_calls ext self topNode
  refine ⟨?_, ?_, ?_, process_events_handles_fixed ext nodes self⟩
  · rw [process_event_filter_setup ext self topNode Call.isGetMagField
      (fun c hc => by cases c <;> first | rfl | cases hc)]
    exact h1
  · rw [process_event_filter_setup ext self topNode Call.isGetTGeoManager
      (fun c hc => by cases c <;> first | rfl | cases hc)]
    exact h2
  · rw [process_event_filter_setup ext self topNode Call.isNewFitter
      (fun c hc => by cases c <;> first | rfl | cases hc)]
    exact h3

/-- C8 at a concrete tracker: after a first full event all three handles are
in place, and two further events (one of them without geometry or field map in
its node tree) leave the handles and `mB` untouched. -/
theorem C8_lazy_handles_witness :
    trackerReady.mField ≠ none ∧ trackerReady.mTGeoManager ≠ none
    ∧ trackerReady.mFitter ≠ none
    ∧ ((process_events ext0 trackerReady [nodeNoGeo, nodeFull]).1.mField = trackerReady.mField
      ∧ (process_events ext0 trackerReady [nodeNoGeo, nodeFull]).1.mTGeoManager
        = trackerReady.mTGeoManager
      ∧ (process_events ext0 trackerReady [nodeNoGeo, nodeFull]).1.mFitter
        = trackerReady.mFitter
      ∧ (process_events ext0 trackerReady [nodeNoGeo, nodeFull]).1.mB = trackerReady.mB
      ∧ (process_events ext0 trackerReady [nodeNoGeo, nodeFull]).2.filter Call.isAcquire
        = []) :=
  ⟨by decide, by decide, by decide,
    (C8_lazy_handles ext0 trackerReady nodeFull [nodeNoGeo, nodeFull]).2.2.2
      (by decide) (by decide) (by decide)⟩

/-! ### The fitter requires its dependencies (C10) -/

/-- One event keeps the fitter tied to field and geometry, and pays for any
`Fitter` it constructs out of the budget. -/
theorem process_event_fitter_step {D SF : Type} (ext : Ext D SF)
    (self : PHTpcTracker D SF) (topNode : PHCompositeNode) (h : FitterHasDeps self) :
    FitterHasDeps (process_event ext self topNode).self
    ∧ ((process_event ext self topNode).trace.filter Call.isNewFitter).length
        + fitterBudget (process_event ext self topNode).self ≤ fitterBudget self := by
  rw [process_event_filter_setup ext self topNode Call.isNewFitter
    (fun c hc => by cases c <;> first | rfl | cases hc)]
  rcases self with ⟨sf, tf, lk, fit, geo, fld, b, ev, ej⟩
  rcases topNode with ⟨fm, tg, cm⟩
  cases fld <;> cases geo <;> cases fit <;> cases fm <;> cases tg <;>
    simp [FitterHasDeps] at h <;>
    simp [FitterHasDeps, fitterBudget, process_event, process_event_setup, getMagField,
      PHFieldUtility.GetFieldMapNode, PHGeomUtility.GetTGeoManager,
      PHFieldConfigv2.set_field_mag_z, List.filter, Call.isNewFitter] <;>
    split <;> simp_all [List.filter, Call.isNewFitter]

/-- One operation keeps the fitter tied to field and geometry, and pays for any
`Fitter` it constructs out of the budget. -/
theorem apply_fitter_step {D SF : Type} (ext : Ext D SF) (self : PHTpcTracker D SF)
    (op : Op D) (h : FitterHasDeps self) :
    FitterHasDeps (op.apply ext self).1
    ∧ ((op.apply ext self).2.filter Call.isNewFitter).length
        + fitterBudget (op.apply ext self).1 ≤ fitterBudget self := by
  cases op with
  | process_event topNode => exact process_event_fitter_step ext self topNode h
  | set_seed_finder_options a b c d e f g => exact ⟨h, Nat.le_of_eq (Nat.zero_add _)⟩
  | set_seed_finder_optimization_remove_loopers opt minr maxr =>
    exact ⟨h, Nat.le_of_eq (Nat.zero_add _)⟩
  | set_track_follower_optimization_helix opt => exact ⟨h, Nat.le_of_eq (Nat.zero_add _)⟩
  | set_track_follower_optimization_precise_fit opt =>
    exact ⟨h, Nat.le_of_eq (Nat.zero_add _)⟩

/-- A lifetime keeps the fitter tied to field and geometry, and constructs no
more fitters than the budget allows. -/
theorem runOps_fitter {D SF : Type} (ext : Ext D SF) (ops : List (Op D))
    (self : PHTpcTracker D SF) (h : FitterHasDeps self) :
    FitterHasDeps (runOps ext self ops).1
    ∧ ((runOps ext self ops).2.filter Call.isNewFitter).length
        + fitterBudget (runOps ext self ops).1 ≤ fitterBudget self := by
  induction ops generalizing self with
  | nil => exact ⟨h, Nat.le_of_eq (Nat.zero_add _)⟩
  | cons op rest ih =>
    obtain ⟨h1, h2⟩ := apply_fitter_step ext self op h
    obtain ⟨k1, k2⟩ := ih (op.apply ext self).1 h1
    refine ⟨k1, ?_⟩
    simp only [runOps, List.filter_append, List.length_append]
    omega

/-- C10: the fitter requires its dependencies. Starting from a tracker whose
fitter handle is null (the constructor leaves fitter, geometry and field all
null), after any sequence of `process_event` calls and option setters the
fitter handle is non-null only if both the field handle and the geometry
handle are non-null, and over the whole sequence a `Fitter` is constructed at
most once. -/
theorem C10_fitter_requires_deps {D SF : Type} (ext : Ext D SF)
    (self : PHTpcTracker D SF) (ops : List (Op D)) (hFit : self.mFitter = none) :
    ((runOps ext self ops).1.mFitter ≠ none →
      (runOps ext self ops).1.mField ≠ none ∧ (runOps ext self ops).1.mTGeoManager ≠ none)
    ∧ ((runOps ext self ops).2.filter Call.isNewFitter).length ≤ 1 := by
  have h0 : FitterHasDeps self := fun h => absurd hFit h
  obtain ⟨h1, h2⟩ := runOps_fitter ext ops self h0
  refine ⟨h1, ?_⟩
  have hb : fitterBudget self = 1 := by simp only [fitterBudget, hFit]
  omega

/-- C10 at the constructor's tracker and a concrete lifetime, after which the
fitter exists: field and geometry exist too, and one `Fitter` was constructed. -/
theorem C10_fitter_requires_deps_witness :
    (PHTpcTracker.new ext0 () ⟨false, false⟩ PHTpcLookup.cleared).mFitter = none
    ∧ (runOps ext0 (PHTpcTracker.new ext0 () ⟨false, false⟩ PHTpcLookup.cleared)
        lifetime0).1.mFitter ≠ none
    ∧ (runOps ext0 (PHTpcTracker.new ext0 () ⟨false, false⟩ PHTpcLookup.cleared)
        lifetime0).1.mField ≠ none
    ∧ (runOps ext0 (PHTpcTracker.new ext0 () ⟨false, false⟩ PHTpcLookup.cleared)
        lifetime0).1.mTGeoManager ≠ none
    ∧ ((runOps ext0 (PHTpcTracker.new ext0 () ⟨false, false⟩ PHTpcLookup.cleared)
        lifetime0).2.filter Call.isNewFitter).length ≤ 1 :=
  ⟨rfl, by decide,
    ((C10_fitter_requires_deps ext0
      (PHTpcTracker.new ext0 () ⟨false, false⟩ PHTpcLookup.cleared) lifetime0
      rfl).1 (by decide)).1,
    ((C10_fitter_requires_deps ext0
      (PHTpcTracker.new ext0 () ⟨false, false⟩ PHTpcLookup.cleared) lifetime0
      rfl).1 (by decide)).2,
    (C10_fitter_requires_deps ext0
      (PHTpcTracker.new ext0 () ⟨false, false⟩ PHTpcLookup.cleared) lifetime0
      rfl).2⟩

/-! ### A missing field or geometry (C1) -/

/-- C1, refuted at a concrete event: the freshly constructed tracker processes
an event whose node tree holds no geometry manager. No fitter can be built,
yet `followTracks` is invoked, with the null fitter, and `process_event`
returns `EVENT_OK` like for any other event. -/
theorem C1_missing_dependency_counterexample :
    tracker0.mTGeoManager = none
    ∧ PHGeomUtility.GetTGeoManager nodeNoGeo = none
    ∧ (process_event ext0 tracker0 nodeNoGeo).self.mFitter = none
    ∧ (process_event ext0 tracker0 nodeNoGeo).trace.filter Call.isFollowTracks
      = [Call.followTracks (some 70) [1, 2, 3] (some 50)
          (PHTpcLookup.populated (some 70)) none [11, 12]]
    ∧ (process_event ext0 tracker0 nodeNoGeo).ret = Fun4AllReturnCodes.EVENT_OK :=
  ⟨rfl, rfl, rfl, rfl, rfl⟩

/-- C1, amended: when no field model or no geometry is available for an event
(the handle is null and `getMagField`, respectively `GetTGeoManager`, yields
none) and no fitter exists yet, `process_event` constructs no fitter and the
fitter handle stays null, but the follow pass is not skipped and no failure is
reported: `followTracks` is invoked exactly once, with the null fitter (and
with the tracker's field handle, null when the field is the missing part), and
`process_event` returns `EVENT_OK`. -/
theorem C1_missing_dependency_amended {D SF : Type} (ext : Ext D SF)
    (self : PHTpcTracker D SF) (topNode : PHCompositeNode)
    (hFit : self.mFitter = none)
    (hMissing : (self.mField = none ∧ (getMagField ext topNode self.mB).field = none)
      ∨ (self.mTGeoManager = none ∧ PHGeomUtility.GetTGeoManager topNode = none)) :
    (process_event ext self topNode).self.mFitter = none
    ∧ ((process_event ext self topNode).self.mField = none
      ∨ (process_event ext self topNode).self.mTGeoManager = none)
    ∧ (process_event ext self topNode).trace.filter Call.isNewFitter = []
    ∧ (∃ candidates gtracks : List Ptr,
        (process_event ext self topNode).trace.filter Call.isFollowTracks
          = [Call.followTracks topNode.clusterMap candidates
              (process_event ext self topNode).self.mField
              (self.mLookup.init topNode.clusterMap) none gtracks])
    ∧ (process_event ext self topNode).ret = Fun4AllReturnCodes.EVENT_OK := by
  have hfit : (process_event ext self topNode).self.mFitter = none
      ∧ ((process_event ext self topNode).self.mField = none
        ∨ (process_event ext self topNode).self.mTGeoManager = none) := by
    rcases self with ⟨sf, tf, lk, fit, geo, fld, b, ev, ej⟩
    rcases topNode with ⟨fm, tg, cm⟩
    simp only at hFit
    subst hFit
    rcases hMissing with ⟨h1, h2⟩ | ⟨h1, h2⟩
    · simp only at h1
      subst h1
      simp [process_event, process_event_setup, h2]
    · simp only at h1
      subst h1
      simp only [PHGeomUtility.GetTGeoManager] at h2
      subst h2
      simp [process_event, process_event_setup, PHGeomUtility.GetTGeoManager]
  have hcalls := (process_event_setup_calls ext self topNode).2.2
  have hfollow := process_event_follow_calls ext self topNode
  refine ⟨hfit.1, hfit.2, ?_, ⟨_, _, by rw [hfollow, hfit.1]⟩, rfl⟩
  rw [process_event_filter_setup ext self topNode Call.isNewFitter
    (fun c hc => by cases c <;> first | rfl | cases hc), hcalls]
  rcases hfit.2 with h | h
  · have h' : (process_event_setup ext self topNode).mField = none := h
    rw [h']
    split <;> simp_all
  · have h' : (process_event_setup ext self topNode).mTGeoManager = none := h
    rw [h']
    split <;> simp_all

/-- C1 amended, at the concrete event without geometry: the hypotheses hold for
the freshly constructed tracker, and the conclusions follow. -/
theorem C1_missing_dependency_amended_witness :
    tracker0.mFitter = none
    ∧ (tracker0.mTGeoManager = none ∧ PHGeomUtility.GetTGeoManager nodeNoGeo = none)
    ∧ (process_event ext0 tracker0 nodeNoGeo).self.mFitter = none
    ∧ (process_event ext0 tracker0 nodeNoGeo).trace.filter Call.isNewFitter = []
    ∧ (process_event ext0 tracker0 nodeNoGeo).ret = Fun4AllReturnCodes.EVENT_OK :=
  ⟨rfl, ⟨rfl, rfl⟩,
    (C1_missing_dependency_amended ext0 tracker0 nodeNoGeo rfl (Or.inr ⟨rfl, rfl⟩)).1,
    (C1_missing_dependency_amended ext0 tracker0 nodeNoGeo rfl (Or.inr ⟨rfl, rfl⟩)).2.2.1,
    (C1_missing_dependency_amended ext0 tracker0 nodeNoGeo rfl (Or.inr ⟨rfl, rfl⟩)).2.2.2.2⟩

end PHTpc
